import Mathlib

/-!
Shallow embedding of `src/vs/workbench/parts/preferences/browser/preferencesActions.ts`.

The file defines five action classes that open settings surfaces.  We model:
  * the workspace context service (workbench state, folders) as an explicit
    record passed to the operations that read it;
  * the enabled flag and the disposable subscription list of the two
    availability-gated actions as an explicit state record, with the
    constructor, the update handler and dispose as state transformers;
  * the calls an action makes into the preferences service as an explicit
    list of `PreferencesCall` values returned by `run`;
  * the mode service of `ConfigureLanguageBasedSettingsAction` as a record of
    the query functions the source uses, and the quick-open picker as an
    oracle function from the presented entries to an optional selection.
-/

namespace PreferencesActions

/-- A kernel-reducible decidability witness for the lexicographic order on
strings, obtained through the order on the underlying character lists. -/
def decStrLe (a b : String) : Decidable (a ≤ b) :=
  decidable_of_iff _ String.le_iff_toList_le.symm

/-- Model of the argument-less JavaScript `Array.prototype.sort` on string
arrays: a stable sort by the lexicographic order on strings. -/
def sortLanguages (l : List String) : List String :=
  @List.insertionSort String (fun a b => a ≤ b) (fun a b => decStrLe a b) l

/-- Model of the JavaScript `toLowerCase()` call on a language display name:
each character is lowercased. -/
def strToLower (s : String) : String :=
  String.mk (s.data.map Char.toLower)

/-- Workbench state of the workspace context service
(`vs/platform/workspace/common/workspace`): empty window, single folder, or
multi-root workspace. -/
inductive WorkbenchState where
  | EMPTY
  | FOLDER
  | WORKSPACE
deriving DecidableEq, Repr

/-- A workspace folder, identified by its uri
(`IWorkspaceFolder` in `vs/platform/workspace/common/workspace`). -/
structure WorkspaceFolder where
  uri : String
deriving DecidableEq, Repr

/-- The workspace returned by `getWorkspace()`: an ordered list of folders. -/
structure Workspace where
  folders : List WorkspaceFolder
deriving DecidableEq, Repr

/-- The part of `IWorkspaceContextService` the source reads:
`getWorkbenchState()` and `getWorkspace()`. -/
structure WorkspaceContext where
  workbenchState : WorkbenchState
  workspace : Workspace
deriving DecidableEq, Repr

/-- A call made into the injected `IPreferencesService`. -/
inductive PreferencesCall where
  | openGlobalSettings
  | openGlobalKeybindingSettings (textual : Bool)
  | openWorkspaceSettings
  | openFolderSettings (uri : String)
  | configureSettingsForLanguage (language : String)
deriving DecidableEq, Repr

/-- A change-notification subscription handle pushed into `this.disposables`
by the constructors of the availability-gated actions. -/
inductive Subscription where
  | workbenchState
  | workspaceFolders
deriving DecidableEq, Repr

/-- Modelled from the spec: the `dispose` helper of `vs/base/common/lifecycle`
(imported by the source but not part of the given sources) releases each
handle of the given array exactly once and returns the empty array.  The
first component is the returned (new) array, the second the handles released
by this call. -/
def lifecycleDispose (disposables : List Subscription) :
    List Subscription × List Subscription :=
  ([], disposables)

/-! ### OpenWorkspaceSettingsAction -/

namespace OpenWorkspaceSettingsAction

/-- The mutable state of an `OpenWorkspaceSettingsAction` instance: the
inherited `enabled` flag and the `disposables` array. -/
structure State where
  enabled : Bool
  disposables : List Subscription
deriving DecidableEq, Repr

/-- The private `update()` method (line 91): sets `this.enabled` to
`getWorkbenchState() !== WorkbenchState.EMPTY`. -/
def update (ctx : WorkspaceContext) (s : State) : State :=
  { s with enabled := decide (ctx.workbenchState ≠ WorkbenchState.EMPTY) }

/-- The constructor (lines 80 to 89): `super(id, label)` leaves the inherited
enabled flag at its default `true` with no disposables registered yet; then
`this.update()` runs eagerly; then the `onDidChangeWorkbenchState` handler is
registered, pushing its subscription into `this.disposables`. -/
def construct (ctx : WorkspaceContext) : State :=
  let s : State := { enabled := true, disposables := [] }
  let s := update ctx s
  { s with disposables := s.disposables ++ [Subscription.workbenchState] }

/-- Delivery of an `onDidChangeWorkbenchState` notification: the registered
handler is the closure that calls `this.update()` against the context at
delivery time. -/
def notifyWorkbenchState (ctx : WorkspaceContext) (s : State) : State :=
  update ctx s

/-- The `run` method (lines 95 to 97): unconditionally delegates to
`preferencesService.openWorkspaceSettings()`. -/
def run (_s : State) : List PreferencesCall :=
  [PreferencesCall.openWorkspaceSettings]

/-- The `dispose` method (lines 99 to 102): `this.disposables =
dispose(this.disposables)` followed by the inherited teardown.  Returns the
new state together with the subscriptions released by this call. -/
def dispose (s : State) : State × List Subscription :=
  let r := lifecycleDispose s.disposables
  ({ s with disposables := r.1 }, r.2)

end OpenWorkspaceSettingsAction

/-! ### OpenFolderSettingsAction -/

namespace OpenFolderSettingsAction

/-- The mutable state of an `OpenFolderSettingsAction` instance. -/
structure State where
  enabled : Bool
  disposables : List Subscription
deriving DecidableEq, Repr

/-- The private `update()` method (lines 126 to 128): sets `this.enabled` to
`getWorkbenchState() === WorkbenchState.WORKSPACE &&
getWorkspace().folders.length > 0`. -/
def update (ctx : WorkspaceContext) (s : State) : State :=
  { s with
    enabled := decide (ctx.workbenchState = WorkbenchState.WORKSPACE)
      && decide (ctx.workspace.folders.length > 0) }

/-- The constructor (lines 113 to 124): after `super(id, label)` the enabled
flag holds its inherited default `true`; `this.update()` runs eagerly; then
the `onDidChangeWorkbenchState` and `onDidChangeWorkspaceFolders` handlers
are registered, each pushing its subscription into `this.disposables`. -/
def construct (ctx : WorkspaceContext) : State :=
  let s : State := { enabled := true, disposables := [] }
  let s := update ctx s
  let s := { s with disposables := s.disposables ++ [Subscription.workbenchState] }
  { s with disposables := s.disposables ++ [Subscription.workspaceFolders] }

/-- A delivered change notification, carrying the workspace context visible
to the handler at delivery time.  Both registered handlers are closures that
call `this.update()`. -/
inductive Notification where
  | workbenchStateChange (ctx : WorkspaceContext)
  | workspaceFoldersChange (ctx : WorkspaceContext)
deriving DecidableEq, Repr

/-- The context a notification delivers. -/
def Notification.ctx : Notification → WorkspaceContext
  | Notification.workbenchStateChange c => c
  | Notification.workspaceFoldersChange c => c

/-- Delivery of a notification: either handler runs `this.update()`. -/
def handle (ev : Notification) (s : State) : State :=
  update ev.ctx s

/-- The `run` method (lines 130 to 138): executes the pick-workspace-folder
command, whose outcome is the `pickResult` argument; if a folder was chosen,
delegates to `preferencesService.openFolderSettings(workspaceFolder.uri)`,
otherwise resolves to null with no service call. -/
def run (_s : State) (pickResult : Option WorkspaceFolder) : List PreferencesCall :=
  match pickResult with
  | some workspaceFolder => [PreferencesCall.openFolderSettings workspaceFolder.uri]
  | none => []

/-- The `dispose` method (lines 140 to 143), as for the workspace action. -/
def dispose (s : State) : State × List Subscription :=
  let r := lifecycleDispose s.disposables
  ({ s with disposables := r.1 }, r.2)

end OpenFolderSettingsAction

/-! ### ConfigureLanguageBasedSettingsAction -/

/-- Minimal model of the external `URI` value built by `URI.file(path)`:
a file-scheme resource wrapping the given path. -/
structure Uri where
  scheme : String
  path : String
deriving DecidableEq, Repr

/-- The `URI.file` constructor applied by the source to build the fake
resource. -/
def Uri.file (p : String) : Uri :=
  { scheme := "file", path := p }

/-- A language mode object as used by the source: `getOrCreateModeByLanguageName`
resolves to a mode, and `mode.getLanguageIdentifier().language` is its
canonical language identifier. -/
structure Mode where
  language : String
deriving DecidableEq, Repr

/-- The part of `IModeService` the source queries. -/
structure ModeService where
  registeredLanguageNames : List String
  modeIdForLanguageName : String → Option String
  extensions : String → List String
  filenames : String → List String
  modeByLanguageName : String → Mode

/-- An `IFilePickOpenEntry` as built by
`ConfigureLanguageBasedSettingsAction.run`: label, optional fake resource,
description. -/
structure FilePickOpenEntry where
  label : String
  resource : Option Uri
  description : String
deriving DecidableEq, Repr

/-- The localized description string
`nls.localize('languageDescriptionConfigured', "({0})", id)`: the identifier
interpolated between parentheses; a null identifier renders as the string
null, as JavaScript string interpolation does. -/
def languageDescriptionConfigured (modeId : Option String) : String :=
  "(" ++ (match modeId with | some s => s | none => "null") ++ ")"

namespace ConfigureLanguageBasedSettingsAction

/-- The entry built for one language name (body of the map callback, lines
164 to 180): the description annotates the mode id the registry resolves for
the lowercased name; the fake resource derives from the first registered
extension, else from the first registered filename, else is absent. -/
def buildEntry (ms : ModeService) (lang : String) : FilePickOpenEntry :=
  let description := languageDescriptionConfigured (ms.modeIdForLanguageName (strToLower lang))
  let fakeResource : Option Uri :=
    match ms.extensions lang with
    | e :: _ => some (Uri.file e)
    | [] =>
      match ms.filenames lang with
      | f :: _ => some (Uri.file f)
      | [] => none
  { label := lang, resource := fakeResource, description := description }

/-- The picker entries (lines 162 to 181): the registered language names are
sorted lexicographically (`languages.sort()`) and mapped to entries. -/
def buildPicks (ms : ModeService) : List FilePickOpenEntry :=
  (sortLanguages ms.registeredLanguageNames).map (buildEntry ms)

/-- The `run` method (lines 161 to 192): shows the picker over `buildPicks`;
the `pick` oracle is the selection the quick-open service resolves with.  On
a selection, the mode for the picked label is materialized and
`configureSettingsForLanguage` is called with its canonical identifier; on
cancellation nothing is called. -/
def run (ms : ModeService)
    (pick : List FilePickOpenEntry → Option FilePickOpenEntry) :
    List PreferencesCall :=
  let picks := buildPicks ms
  match pick picks with
  | some p =>
      [PreferencesCall.configureSettingsForLanguage
        ((ms.modeByLanguageName p.label).language)]
  | none => []

end ConfigureLanguageBasedSettingsAction

/-- A concrete mode service used for evaluating the model: the registered
languages of the spec scenario, with TypeScript carrying two extensions, Go
carrying only an exact filename, and C carrying neither. -/
def exampleModeService : ModeService where
  registeredLanguageNames := ["TypeScript", "C", "Go"]
  modeIdForLanguageName := fun n =>
    if n = "typescript" then some "typescript"
    else if n = "c" then some "c"
    else if n = "go" then some "go"
    else none
  extensions := fun l => if l = "TypeScript" then [".ts", ".tsx"] else []
  filenames := fun l => if l = "Go" then ["Makefile"] else []
  modeByLanguageName := fun l => { language := strToLower l }

/-! ### Helper lemmas -/

/-- Sorting the language names is a permutation. -/
theorem sortLanguages_perm (l : List String) : List.Perm (sortLanguages l) l :=
  @List.perm_insertionSort String (fun a b => a ≤ b) (fun a b => decStrLe a b) l

/-- The sorted language names are sorted by the lexicographic order. -/
theorem sortLanguages_sorted (l : List String) :
    List.Sorted (fun a b : String => a ≤ b) (sortLanguages l) :=
  @List.sorted_insertionSort String (fun a b => a ≤ b) (fun a b => decStrLe a b)
    inferInstance inferInstance l

/-- Membership characterization of the built picker entries. -/
theorem mem_buildPicks {ms : ModeService} {e : FilePickOpenEntry} :
    e ∈ ConfigureLanguageBasedSettingsAction.buildPicks ms ↔
      ∃ lang, lang ∈ ms.registeredLanguageNames ∧
        e = ConfigureLanguageBasedSettingsAction.buildEntry ms lang := by
  unfold ConfigureLanguageBasedSettingsAction.buildPicks
  rw [List.mem_map]
  constructor
  · rintro ⟨lang, hmem, rfl⟩
    exact ⟨lang, (sortLanguages_perm _).mem_iff.mp hmem, rfl⟩
  · rintro ⟨lang, hmem, rfl⟩
    exact ⟨lang, (sortLanguages_perm _).mem_iff.mpr hmem, rfl⟩

/-! ### Claim theorems -/

/-- C1: for OpenFolderSettingsAction, after construction and after every
workbench-state-change or folder-list-change notification, the enabled flag
is true iff the workbench state is WORKSPACE and the folder count is
positive. -/
theorem folderSettingsAction_enabled_iff_workspace_with_folders
    (ctx : WorkspaceContext) (s : OpenFolderSettingsAction.State)
    (ev : OpenFolderSettingsAction.Notification) :
    ((OpenFolderSettingsAction.construct ctx).enabled = true ↔
      ctx.workbenchState = WorkbenchState.WORKSPACE ∧
        0 < ctx.workspace.folders.length) ∧
    ((OpenFolderSettingsAction.handle ev s).enabled = true ↔
      ev.ctx.workbenchState = WorkbenchState.WORKSPACE ∧
        0 < ev.ctx.workspace.folders.length) := by
  constructor
  · simp [OpenFolderSettingsAction.construct, OpenFolderSettingsAction.update]
  · simp [OpenFolderSettingsAction.handle, OpenFolderSettingsAction.update]

/-- C7: for OpenWorkspaceSettingsAction, after construction and after every
workbench-state-change notification, the enabled flag is true iff the
workbench state is not EMPTY. -/
theorem workspaceSettingsAction_enabled_iff_nonempty
    (ctx ctx2 : WorkspaceContext) (s : OpenWorkspaceSettingsAction.State) :
    ((OpenWorkspaceSettingsAction.construct ctx).enabled = true ↔
      ctx.workbenchState ≠ WorkbenchState.EMPTY) ∧
    ((OpenWorkspaceSettingsAction.notifyWorkbenchState ctx2 s).enabled = true ↔
      ctx2.workbenchState ≠ WorkbenchState.EMPTY) := by
  constructor
  · simp [OpenWorkspaceSettingsAction.construct, OpenWorkspaceSettingsAction.update]
  · simp [OpenWorkspaceSettingsAction.notifyWorkbenchState,
      OpenWorkspaceSettingsAction.update]

/-- C10: both availability-gated constructors run update() eagerly, so that
immediately after construction the enabled flag already matches the current
workspace topology. -/
theorem construct_computes_enabled_eagerly (ctx : WorkspaceContext) :
    ((OpenWorkspaceSettingsAction.construct ctx).enabled = true ↔
      ctx.workbenchState ≠ WorkbenchState.EMPTY) ∧
    ((OpenFolderSettingsAction.construct ctx).enabled = true ↔
      ctx.workbenchState = WorkbenchState.WORKSPACE ∧
        0 < ctx.workspace.folders.length) := by
  constructor
  · simp [OpenWorkspaceSettingsAction.construct, OpenWorkspaceSettingsAction.update]
  · simp [OpenFolderSettingsAction.construct, OpenFolderSettingsAction.update]

/-- C6: OpenFolderSettingsAction.run calls openFolderSettings iff the
pick-workspace-folder command resolved to a folder, and then with that
folder's uri; on cancellation no preferences call is made. -/
theorem folderSettings_run_delegates_iff_folder_picked
    (s : OpenFolderSettingsAction.State) (pickResult : Option WorkspaceFolder) :
    (pickResult = none → OpenFolderSettingsAction.run s pickResult = []) ∧
    (∀ f, pickResult = some f →
      OpenFolderSettingsAction.run s pickResult =
        [PreferencesCall.openFolderSettings f.uri]) := by
  constructor
  · rintro rfl
    rfl
  · rintro f rfl
    rfl

/-- Witness for C6 at a concrete folder and at cancellation. -/
theorem folderSettings_run_delegates_iff_folder_picked_witness :
    OpenFolderSettingsAction.run { enabled := true, disposables := [] }
        (some { uri := "file:///w/a" }) =
      [PreferencesCall.openFolderSettings "file:///w/a"] ∧
    OpenFolderSettingsAction.run { enabled := true, disposables := [] } none = [] :=
  ⟨(folderSettings_run_delegates_iff_folder_picked
      { enabled := true, disposables := [] }
      (some { uri := "file:///w/a" })).2 { uri := "file:///w/a" } rfl,
   (folderSettings_run_delegates_iff_folder_picked
      { enabled := true, disposables := [] } none).1 rfl⟩

/-- C9: the run operations never read the enabled flag: flipping the flag
leaves the calls made by run unchanged, for both availability-gated
actions. -/
theorem run_independent_of_enabled_flag (e1 e2 : Bool)
    (d : List Subscription) (pickResult : Option WorkspaceFolder) :
    OpenWorkspaceSettingsAction.run { enabled := e1, disposables := d } =
      OpenWorkspaceSettingsAction.run { enabled := e2, disposables := d } ∧
    OpenFolderSettingsAction.run { enabled := e1, disposables := d } pickResult =
      OpenFolderSettingsAction.run { enabled := e2, disposables := d } pickResult :=
  ⟨rfl, rfl⟩

/-- C8: dispose is idempotent for both availability-gated actions: a second
dispose releases no subscription and leaves the state unchanged. -/
theorem dispose_idempotent_both_actions
    (s : OpenWorkspaceSettingsAction.State) (t : OpenFolderSettingsAction.State) :
    ((OpenWorkspaceSettingsAction.dispose (OpenWorkspaceSettingsAction.dispose s).1).1 =
        (OpenWorkspaceSettingsAction.dispose s).1 ∧
      (OpenWorkspaceSettingsAction.dispose (OpenWorkspaceSettingsAction.dispose s).1).2 = []) ∧
    ((OpenFolderSettingsAction.dispose (OpenFolderSettingsAction.dispose t).1).1 =
        (OpenFolderSettingsAction.dispose t).1 ∧
      (OpenFolderSettingsAction.dispose (OpenFolderSettingsAction.dispose t).1).2 = []) := by
  refine ⟨⟨?_, ?_⟩, ⟨?_, ?_⟩⟩ <;>
    simp [OpenWorkspaceSettingsAction.dispose, OpenFolderSettingsAction.dispose,
      lifecycleDispose]

/-- C3: the picker entries of the language configurator are sorted
lexicographically by display name; in particular for the registered
languages TypeScript, C and Go the presented label order is C, Go,
TypeScript. -/
theorem languagePicker_sorted_lexicographically (ms : ModeService) :
    List.Sorted (fun a b : String => a ≤ b)
      ((ConfigureLanguageBasedSettingsAction.buildPicks ms).map
        FilePickOpenEntry.label) ∧
    (ConfigureLanguageBasedSettingsAction.buildPicks exampleModeService).map
        FilePickOpenEntry.label = ["C", "Go", "TypeScript"] := by
  refine ⟨?_, ?_⟩
  · have h : (ConfigureLanguageBasedSettingsAction.buildPicks ms).map
        FilePickOpenEntry.label = sortLanguages ms.registeredLanguageNames := by
      simp [ConfigureLanguageBasedSettingsAction.buildPicks, List.map_map,
        Function.comp_def, ConfigureLanguageBasedSettingsAction.buildEntry]
    rw [h]
    exact sortLanguages_sorted _
  · decide

/-- C2: every presented picker entry is for a registered language display
name and its description annotates the canonical identifier the mode
registry resolves for that display name. -/
theorem languagePicker_description_annotates_mode_id
    (ms : ModeService) (e : FilePickOpenEntry)
    (he : e ∈ ConfigureLanguageBasedSettingsAction.buildPicks ms) :
    e.label ∈ ms.registeredLanguageNames ∧
    e.description =
      languageDescriptionConfigured
        (ms.modeIdForLanguageName (strToLower e.label)) := by
  obtain ⟨lang, hlang, rfl⟩ := mem_buildPicks.mp he
  exact ⟨hlang, rfl⟩

/-- Witness for C2 at the C entry of the example mode service. -/
theorem languagePicker_description_annotates_mode_id_witness :
    ({ label := "C", resource := none, description := "(c)" } : FilePickOpenEntry) ∈
        ConfigureLanguageBasedSettingsAction.buildPicks exampleModeService ∧
    "C" ∈ exampleModeService.registeredLanguageNames ∧
    ("(c)" : String) =
      languageDescriptionConfigured
        (exampleModeService.modeIdForLanguageName (strToLower "C")) := by
  have h : (⟨"C", none, "(c)"⟩ : FilePickOpenEntry) ∈
      ConfigureLanguageBasedSettingsAction.buildPicks exampleModeService := by decide
  have h2 := languagePicker_description_annotates_mode_id exampleModeService _ h
  exact ⟨h, h2.1, h2.2⟩

/-- C4: the fake resource of every picker entry derives from the first
registered extension of its language if any, otherwise from the first
registered exact filename if any, and is absent otherwise. -/
theorem languagePicker_fake_resource_derivation
    (ms : ModeService) (e : FilePickOpenEntry)
    (he : e ∈ ConfigureLanguageBasedSettingsAction.buildPicks ms) :
    (∀ x xs, ms.extensions e.label = x :: xs → e.resource = some (Uri.file x)) ∧
    (ms.extensions e.label = [] →
      ∀ f fs, ms.filenames e.label = f :: fs → e.resource = some (Uri.file f)) ∧
    (ms.extensions e.label = [] → ms.filenames e.label = [] →
      e.resource = none) := by
  obtain ⟨lang, hlang, rfl⟩ := mem_buildPicks.mp he
  have hl : (ConfigureLanguageBasedSettingsAction.buildEntry ms lang).label = lang := rfl
  rw [hl]
  refine ⟨?_, ?_, ?_⟩
  · intro x xs hx
    simp only [ConfigureLanguageBasedSettingsAction.buildEntry, hx]
  · intro hext f fs hf
    simp only [ConfigureLanguageBasedSettingsAction.buildEntry, hext, hf]
  · intro hext hf
    simp only [ConfigureLanguageBasedSettingsAction.buildEntry, hext, hf]

/-- Witness for C4 at the three entries of the example mode service:
TypeScript has extensions, Go has only a filename, C has neither. -/
theorem languagePicker_fake_resource_derivation_witness :
    (({ label := "TypeScript", resource := some (Uri.file ".ts"),
        description := "(typescript)" } : FilePickOpenEntry).resource =
      some (Uri.file ".ts")) ∧
    (({ label := "Go", resource := some (Uri.file "Makefile"),
        description := "(go)" } : FilePickOpenEntry).resource =
      some (Uri.file "Makefile")) ∧
    (({ label := "C", resource := none, description := "(c)" } :
        FilePickOpenEntry).resource = none) := by
  have hTS : (⟨"TypeScript", some (Uri.file ".ts"), "(typescript)"⟩ : FilePickOpenEntry) ∈
      ConfigureLanguageBasedSettingsAction.buildPicks exampleModeService := by decide
  have hGo : (⟨"Go", some (Uri.file "Makefile"), "(go)"⟩ : FilePickOpenEntry) ∈
      ConfigureLanguageBasedSettingsAction.buildPicks exampleModeService := by decide
  have hC : (⟨"C", none, "(c)"⟩ : FilePickOpenEntry) ∈
      ConfigureLanguageBasedSettingsAction.buildPicks exampleModeService := by decide
  refine ⟨?_, ?_, ?_⟩
  · exact (languagePicker_fake_resource_derivation exampleModeService _ hTS).1
      ".ts" [".tsx"] (by decide)
  · exact (languagePicker_fake_resource_derivation exampleModeService _ hGo).2.1
      (by decide) "Makefile" [] (by decide)
  · exact (languagePicker_fake_resource_derivation exampleModeService _ hC).2.2
      (by decide) (by decide)

/-- C5: the language configurator calls configureSettingsForLanguage iff the
picker resolved with a selection, and then with the canonical identifier of
the mode materialized from the selected display name; on cancellation no
preferences call is made. -/
theorem configureLanguage_delegates_iff_picked
    (ms : ModeService)
    (pick : List FilePickOpenEntry → Option FilePickOpenEntry) :
    (pick (ConfigureLanguageBasedSettingsAction.buildPicks ms) = none →
      ConfigureLanguageBasedSettingsAction.run ms pick = []) ∧
    (∀ p, pick (ConfigureLanguageBasedSettingsAction.buildPicks ms) = some p →
      ConfigureLanguageBasedSettingsAction.run ms pick =
        [PreferencesCall.configureSettingsForLanguage
          ((ms.modeByLanguageName p.label).language)]) := by
  constructor
  · intro h
    simp [ConfigureLanguageBasedSettingsAction.run, h]
  · intro p h
    simp [ConfigureLanguageBasedSettingsAction.run, h]

/-- Witness for C5: a picker that selects the first entry triggers the call
for the C language, a picker that cancels triggers nothing. -/
theorem configureLanguage_delegates_iff_picked_witness :
    ConfigureLanguageBasedSettingsAction.run exampleModeService
        (fun l => l.head?) =
      [PreferencesCall.configureSettingsForLanguage
        ((exampleModeService.modeByLanguageName "C").language)] ∧
    ConfigureLanguageBasedSettingsAction.run exampleModeService
        (fun _ => none) = [] := by
  constructor
  · exact (configureLanguage_delegates_iff_picked exampleModeService
      (fun l => l.head?)).2
      { label := "C", resource := none, description := "(c)" } (by decide)
  · exact (configureLanguage_delegates_iff_picked exampleModeService
      (fun _ => none)).1 rfl

end PreferencesActions
